import Mathlib

/-
Shallow embedding of the backup orchestrator (src/config.py, src/util.py,
src/uploader.py, src/sync.py, src/archiver.py) and proofs about it.

Modelling conventions:
* A row of the `all_files` table (config.py, class AllFiles) is a `FileRow`;
  the surrogate `id` column is not modelled, row identity is positional.
* `datetime` values are modelled as microsecond instants (`Int`).
  `astimezone` only changes the representation of an instant, never the
  instant itself, so the difference of two `datetime`s is the difference of
  their instants; a naive datetime stands for its instant in the local zone.
* External services (the storage tool, the sync daemon, the filesystem) are
  oracles: their answers are passed in as arguments, and commands sent to
  them are recorded in effect traces.
* Python `set`s are modelled as lists; the properties proved below only
  depend on membership, never on enumeration order.
-/

namespace Backup

/-- A row of the per-folder `all_files` table (config.py, `AllFiles`):
`path`, `size`, `hash`, `modified`, `uploaded` (all nullable except `path`)
and the `cloud_only` flag (default false). -/
structure FileRow where
  path : String
  size : Option Nat
  hash : Option String
  modified : Option Int
  uploaded : Option Int
  cloud_only : Bool
deriving Repr, DecidableEq

/-- The action tags moved through the per-folder queues
(config.py: `UploaderAction = Literal["copy", "move", "delete_files", "delete_folders"]`). -/
inductive UploaderAction where
  | copy
  | move
  | delete_files
  | delete_folders
deriving Repr, DecidableEq

/-- The string value each action tag has in the source. -/
def actionName : UploaderAction → String
  | .copy => "copy"
  | .move => "move"
  | .delete_files => "delete_files"
  | .delete_folders => "delete_folders"

/-- `Uploader.ACTIONS = ("copy", "move")` (uploader.py). -/
def uploaderACTIONS : List UploaderAction := [.copy, .move]

/-- The `(hash, modTime, size)` triple returned by `get_file_details`
(util.py); the hash is `None` (the `default_hashsum` sentinel) when the
storage tool could not hash the file. -/
structure FileDetails where
  hash : Option String
  modified : Int
  size : Nat
deriving Repr, DecidableEq

/- ---------------------------------------------------------------- -/
/- util.is_same_file                                                 -/
/- ---------------------------------------------------------------- -/

/-- A record compared by `util.is_same_file`: either a `(hash, modTime, size)`
triple or a `(modTime, size)` pair (`file[-2:]` is used whenever the two
arguments are not both triples). -/
inductive FileRecord where
  | triple (hash : Option String) (modTime : Option Int) (size : Option Nat)
  | pair (modTime : Option Int) (size : Option Nat)
deriving Repr, DecidableEq

/-- The `modTime` component (`file[-2:][0]`). -/
def FileRecord.mod : FileRecord → Option Int
  | .triple _ d _ => d
  | .pair d _ => d

/-- The `size` component (`file[-2:][1]`). -/
def FileRecord.sz : FileRecord → Option Nat
  | .triple _ _ s => s
  | .pair _ s => s

/-- util.is_same_file.  In the triple/triple branch the source returns
`False` on a hash mismatch, `False` on a size mismatch, `date1 == date2`
when either mtime is `None`, and `True` otherwise (the `< 10 µs` comparison
there only decides whether a warning is logged).  In every other branch it
compares `file[-2:]`: `False` on size mismatch, `date1 == date2` when
either mtime is `None`, else same iff the instants differ by less than
10 microseconds. -/
def is_same_file : FileRecord → FileRecord → Bool
  | .triple h1 d1 s1, .triple h2 d2 s2 =>
      if h1 ≠ h2 then false
      else if s1 ≠ s2 then false
      else if d1.isNone || d2.isNone then d1 == d2
      else true
  | f1, f2 =>
      if f1.sz ≠ f2.sz then false
      else if f1.mod.isNone || f2.mod.isNone then f1.mod == f2.mod
      else
        match f1.mod, f2.mod with
        | some t1, some t2 => decide ((t1 - t2).natAbs < 10)
        | _, _ => false

/-- The checks `is_same_file` performs before it ever looks at the
modification times: hash equality and size equality in the triple/triple
branch, size equality otherwise. -/
def hashSizeChecksPass : FileRecord → FileRecord → Bool
  | .triple h1 _ s1, .triple h2 _ s2 => h1 == h2 && s1 == s2
  | f1, f2 => f1.sz == f2.sz

/- ---------------------------------------------------------------- -/
/- util.retry_on_error                                               -/
/- ---------------------------------------------------------------- -/

/-- The `while runs and runs[0] + retry_expiry < curr_time: runs.pop(0)`
loop of util.retry_on_error. -/
def pruneExpired (retry_expiry curr_time : Nat) : List Nat → List Nat
  | [] => []
  | t :: rest =>
      if t + retry_expiry < curr_time then pruneExpired retry_expiry curr_time rest
      else t :: rest

/-- One failing iteration after another of util.retry_on_error, driven by
the observed clock values: attempt `(s, f)` reads `time()` as `s` at the top
of the loop (appended to `runs`), the wrapped call fails, and after the
sleep `time()` is `f`; expired entries are pruned from the front and `f` is
appended; the exception is re-raised when `len(runs) > max_retry_count`.
Returns whether the exception was re-raised together with the final `runs`
list. -/
def retryRunsGo (max_retry_count retry_expiry : Nat) :
    List Nat → List (Nat × Nat) → Bool × List Nat
  | runs, [] => (false, runs)
  | runs, (s, f) :: rest =>
      let runs1 := runs ++ [s]
      let runs2 := pruneExpired retry_expiry f runs1
      let runs3 := runs2 ++ [f]
      if max_retry_count < runs3.length then (true, runs3)
      else retryRunsGo max_retry_count retry_expiry runs3 rest

/-- The failure window of util.retry_on_error over a sequence of failing
attempts, starting from the empty `runs` list. -/
def retry_on_error_window (max_retry_count retry_expiry : Nat)
    (attempts : List (Nat × Nat)) : Bool × List Nat :=
  retryRunsGo max_retry_count retry_expiry [] attempts

/-- The timestamps a sequence of failing attempts records, in order: each
attempt contributes its loop-top `time()` and its post-sleep `time()`. -/
def recordedTimes (attempts : List (Nat × Nat)) : List Nat :=
  attempts.flatMap (fun p => [p.1, p.2])

/- ---------------------------------------------------------------- -/
/- uploader.py                                                       -/
/- ---------------------------------------------------------------- -/

/-- `FolderUploader.check_file`: a path is uploadable unless it contains
`"_files/"` or ends with `"_files"`. -/
def check_file (file : String) : Bool :=
  if decide ("_files/".toList <:+: file.toList) || file.endsWith "_files" then false
  else true

/-- Externally visible effects of the two uploader workers, in program
order: a put onto the global uploader queue, the SQL `UPDATE ... SET
uploaded = modified`, the scratch `--files-from` file write, a storage-tool
invocation, and the warning logged for an empty batch. -/
inductive Effect where
  | queuePut (paths : List String) (action : UploaderAction)
  | dbSetUploadedToModified (paths : List String)
  | scratchWrite (paths : List String)
  | runRclone (subcommand : String) (paths : List String)
  | logWarning
deriving Repr, DecidableEq

/-- `Uploader.upload` (uploader.py): an empty path list only logs a warning
and returns; otherwise the deduplicated list is written to a scratch file
and `rclone <copy|move> --files-from <scratch> <src> <dst>` is run. -/
def uploaderUpload (paths : List String) (action : UploaderAction) : List Effect :=
  if paths.isEmpty then [.logWarning]
  else [.scratchWrite paths, .runRclone (actionName action) paths]

/-- `FolderUploader.upload` (uploader.py): filters the batch with
`check_file`, puts the filtered list onto the global uploader queue, and
then immediately sets `uploaded = modified` on the filtered paths in the
database. -/
def folderUploaderUpload (collect_files : List String) (action : UploaderAction) :
    List Effect :=
  let filtered_files := collect_files.filter check_file
  [.queuePut filtered_files action, .dbSetUploadedToModified filtered_files]

/-- The combined effect order for one copy/move batch: the folder uploader
runs `FolderUploader.upload`, and the global uploader later dequeues the
item and runs `Uploader.upload` on the filtered paths. -/
def uploadPipelineTrace (files : List String) (action : UploaderAction) : List Effect :=
  folderUploaderUpload files action ++ uploaderUpload (files.filter check_file) action

/-- Whether every `uploaded = modified` database write in a trace is
preceded by a storage-tool invocation (the transfer). -/
def setUploadedOnlyAfterTransferAux : Bool → List Effect → Bool
  | _, [] => true
  | _, .runRclone _ _ :: rest => setUploadedOnlyAfterTransferAux true rest
  | seen, .dbSetUploadedToModified _ :: rest => seen && setUploadedOnlyAfterTransferAux seen rest
  | seen, _ :: rest => setUploadedOnlyAfterTransferAux seen rest

/-- Whether, in the given trace, `uploaded` is only ever set after a
storage-tool transfer has already run. -/
def setUploadedOnlyAfterTransfer (trace : List Effect) : Bool :=
  setUploadedOnlyAfterTransferAux false trace

/-- An input observed by the `FolderUploader.listen` loop: either
`queue.get` returned a `(files, action)` message within the 10-second
window, or it raised `Empty` (the window elapsed). -/
inductive QueueEvent where
  | msg (files : List String) (action : UploaderAction)
  | timeout
deriving Repr, DecidableEq

/-- The pending flush: `[(collect_action, collect_files)]` when a batch is
being collected, else nothing. -/
def flushOf (ca : Option UploaderAction) (cf : List String) :
    List (UploaderAction × List String) :=
  match ca with
  | some c => [(c, cf)]
  | none => []

/-- `FolderUploader.listen` (uploader.py) as a function from the queue
events it observes to the ordered list of `perform_action` calls it makes.
A message with the same action as the one being collected extends the
batch; any other message or a timeout flushes the collected batch first;
copy/move messages start (or restart) collecting, anything else is
performed at once.  After a timeout flush the worker blocks in `queue.get`;
the stale collector state is never consulted before being overwritten, so
the blocked worker behaves exactly like the loop with nothing collected. -/
def folderUploaderListen (ca : Option UploaderAction) (cf : List String) :
    List QueueEvent → List (UploaderAction × List String)
  | [] => []
  | .msg files action :: rest =>
      if some action = ca then folderUploaderListen ca (cf ++ files) rest
      else
        flushOf ca cf ++
        (if uploaderACTIONS.contains action then
          folderUploaderListen (some action) files rest
        else (action, files) :: folderUploaderListen none [] rest)
  | .timeout :: rest =>
      flushOf ca cf ++ folderUploaderListen none [] rest

/-- What `perform_action` forwards to the global uploader: only copy/move
calls reach `FolderUploader.upload`, which puts the `check_file`-filtered
list onto the global queue; `delete_files`/`delete_folders` are executed
directly by the folder uploader and never reach the global queue. -/
def globalUploaderEmissions (calls : List (UploaderAction × List String)) :
    List (UploaderAction × List String) :=
  (calls.filter (fun c => uploaderACTIONS.contains c.1)).map
    (fun c => (c.1, c.2.filter check_file))

/- ---------------------------------------------------------------- -/
/- sync.py: UploadSyncer.listen                                      -/
/- ---------------------------------------------------------------- -/

/-- A Syncthing disk event as consumed by `UploadSyncer.listen` (sync.py):
the event's `type` string and the `folder`, `action`, `path` and `type`
fields of its `data`. -/
structure SyncChange where
  typ : String
  folder : String
  action : String
  path : String
  itemType : String
deriving Repr, DecidableEq

/-- The three per-batch action lists built by `UploadSyncer.listen`. -/
structure ActionLists where
  copy : List String
  delete_files : List String
  delete_folders : List String
deriving Repr, DecidableEq

/-- The `match change` statement of `UploadSyncer.listen`: events for other
folders are skipped; deleted files append to `delete_files`, deleted `dir`s
to `delete_folders`, modifications (local or remote, any item type) to
`copy`; anything else only logs a warning.  Both `LocalChangeDetected` and
`RemoteChangeDetected` are treated identically. -/
def collectActions (folder_id : String) (changes : List SyncChange) : ActionLists :=
  changes.foldl
    (fun acc c =>
      if c.folder ≠ folder_id then acc
      else if (c.typ = "RemoteChangeDetected" ∨ c.typ = "LocalChangeDetected") ∧
          c.action = "deleted" ∧ c.itemType = "file" then
        { acc with delete_files := acc.delete_files ++ [c.path] }
      else if (c.typ = "RemoteChangeDetected" ∨ c.typ = "LocalChangeDetected") ∧
          c.action = "deleted" ∧ c.itemType = "dir" then
        { acc with delete_folders := acc.delete_folders ++ [c.path] }
      else if (c.typ = "RemoteChangeDetected" ∨ c.typ = "LocalChangeDetected") ∧
          c.action = "modified" then
        { acc with copy := acc.copy ++ [c.path] }
      else acc)
    ⟨[], [], []⟩

/-- Python `list.remove`: drop the first occurrence of `x`. -/
def removeFirst (x : String) : List String → List String
  | [] => []
  | y :: ys => if y = x then ys else y :: removeFirst x ys

/-- Python's `str.startswith`, on the character lists of the two strings
(the argument order matches `path.startswith(pfx)`). -/
def strStartsWith (s pfx : String) : Bool :=
  pfx.toList.isPrefixOf s.toList

/-- The `UPDATE all_files SET size = NULL, hash = NULL, modified = NULL`
that `UploadSyncer.listen` runs for a batch's `delete_files` paths `D` and
`delete_folders` paths `P`: it touches every row whose `path` is in `D` or
starts with some element of `P` (`AllFiles.is_relative_to_any`, a plain
string `startswith`); the statement carries no `cloud_only` condition. -/
def uploadSyncerClearDeleted (deleteFiles deleteFolders : List String)
    (db : List FileRow) : List FileRow :=
  db.map (fun r =>
    if deleteFiles.contains r.path
        || deleteFolders.any (fun p => strStartsWith r.path p) then
      { r with size := none, hash := none, modified := none }
    else r)

/-- The outcome of `UploadSyncer.listen` processing one batch: the new
database contents, the `(paths, action)` items put onto the folder upload
queue, and the paths the worker asked the sync daemon to ignore.  The
listen loop never calls `extend_ignores` (its docstring notwithstanding),
so the last component is always empty. -/
structure UploadSyncerResult where
  db : List FileRow
  puts : List (List String × UploaderAction)
  ignoreAdds : List String
deriving Repr, DecidableEq

/-- One iteration of `UploadSyncer.listen` (sync.py) on a batch of changes:
build the action lists; for `copy` paths whose row has `modified` NULL and
`uploaded` set (a cloud-only download completing locally), refresh the
row from `get_file_details` and remove the path from the batch; clear the
byte columns for deletions; delete-and-reinsert rows for the remaining
`copy` paths with fresh details; finally put each non-empty action list
onto the folder upload queue in dict order (copy, delete_files,
delete_folders). -/
def uploadSyncerProcess (folder_id : String) (details : String → FileDetails)
    (db : List FileRow) (changes : List SyncChange) : UploadSyncerResult :=
  let acts := collectActions folder_id changes
  let isCompletedDownload := fun (r : FileRow) =>
    acts.copy.contains r.path && r.modified.isNone && r.uploaded.isSome
  let db1 :=
    if acts.copy ≠ [] then
      db.map (fun r =>
        if isCompletedDownload r then
          { r with hash := (details r.path).hash,
                   modified := some (details r.path).modified,
                   size := some (details r.path).size }
        else r)
    else db
  let copy1 :=
    if acts.copy ≠ [] then
      (db.filter isCompletedDownload).foldl (fun cp r => removeFirst r.path cp) acts.copy
    else acts.copy
  if copy1 = [] ∧ acts.delete_files = [] ∧ acts.delete_folders = [] then
    ⟨db1, [], []⟩
  else
    let db2 :=
      if acts.delete_files ≠ [] ∨ acts.delete_folders ≠ [] then
        uploadSyncerClearDeleted acts.delete_files acts.delete_folders db1
      else db1
    let db3 :=
      if copy1 ≠ [] then
        db2.filter (fun r => !copy1.contains r.path) ++
          copy1.map (fun p =>
            ⟨p, some (details p).size, (details p).hash, some (details p).modified,
             none, false⟩)
      else db2
    let puts :=
      (if copy1 ≠ [] then [(copy1, UploaderAction.copy)] else []) ++
      (if acts.delete_files ≠ [] then [(acts.delete_files, UploaderAction.delete_files)] else []) ++
      (if acts.delete_folders ≠ [] then [(acts.delete_folders, UploaderAction.delete_folders)] else [])
    ⟨db3, puts, []⟩

/- ---------------------------------------------------------------- -/
/- sync.py: sync_from_cloud                                          -/
/- ---------------------------------------------------------------- -/

/-- `util.write_checkfile`: one `"<hash>  <path>"` line per row whose
`hash` is not NULL. -/
def writeCheckfileEntries (db : List FileRow) : List (String × String) :=
  db.filterMap (fun r => r.hash.map (fun h => (h, r.path)))

/-- The last conjunct of the deletion-missed SELECT in `sync_from_cloud`
(sync.py line 252) is the Python expression `(not AllFiles.cloud_only)`.
Python's `not` cannot be overloaded: it calls `bool` on the
`InstrumentedAttribute` column object, which is truthy (it defines no
`__bool__`, unlike `ClauseElement`), so the expression evaluates to the
Python constant `False`, which SQLAlchemy renders as the SQL literal
false — not as the column negation `~AllFiles.cloud_only`. -/
def pyNotCloudOnlyColumn : Bool := false

/-- The deletion-missed SELECT of `sync_from_cloud`: rows with `uploaded`
not NULL, `path` among the download candidates, `size` NULL — and the
constant-false conjunct described at `pyNotCloudOnlyColumn`. -/
def deletionMissedSelect (download_files : List String) (db : List FileRow) :
    List String :=
  (db.filter (fun r =>
    r.uploaded.isSome && download_files.contains r.path && r.size.isNone &&
      pyNotCloudOnlyColumn)).map (fun r => r.path)

/-- The outcome of the download section of `sync_from_cloud`: the new
database contents, the paths passed to the `rclone copy remote local
--files-from` invocation, and the items put onto the folder uploader
queue. -/
structure SyncFromCloudResult where
  db : List FileRow
  downloadFiles : List String
  puts : List (List String × UploaderAction)
deriving Repr, DecidableEq

/-- The download section of `sync_from_cloud` (sync.py): `download_files`
is the union of the cloud-only-filtered remotely-added files and the
differing files whose remote mtime is newer (or whose local mtime is
unknown).  If it is non-empty: compute `deletion_missed` with
`deletionMissedSelect` and subtract it from the download set; INSERT a row
`(path, uploaded = now)` for every newly downloaded path; enqueue
`(deletion_missed, delete_files)` when non-empty; run the download copy,
and on exit code 0 set `uploaded = modified` on the downloaded rows whose
`modified` is not NULL. -/
def syncFromCloudDownloadStep (db : List FileRow) (new_download_files : List String)
    (newer_differing_files : List String) (now : Int) (copyExitedZero : Bool) :
    SyncFromCloudResult :=
  let download_files := new_download_files ++ newer_differing_files
  if download_files = [] then ⟨db, [], []⟩
  else
    let deletion_missed := deletionMissedSelect download_files db
    let download_files2 := download_files.filter (fun p => !deletion_missed.contains p)
    let db1 :=
      if new_download_files ≠ [] then
        db ++ new_download_files.map (fun p => ⟨p, none, none, none, some now, false⟩)
      else db
    let puts :=
      if deletion_missed ≠ [] then [(deletion_missed, UploaderAction.delete_files)] else []
    let db2 :=
      if copyExitedZero then
        db1.map (fun r =>
          if download_files2.contains r.path && r.modified.isSome then
            { r with uploaded := r.modified }
          else r)
      else db1
    ⟨db2, download_files2, puts⟩

/- ---------------------------------------------------------------- -/
/- Theorems                                                          -/
/- ---------------------------------------------------------------- -/

/-- Option equality reduces to joint absence when one side is `none`. -/
theorem option_beq_of_absent {d1 d2 : Option Int} (h : d1 = none ∨ d2 = none) :
    (d1 == d2) = (d1.isNone && d2.isNone) := by
  rcases h with rfl | rfl
  · cases d2 <;> rfl
  · cases d1 <;> rfl

/-- Claim C9: `is_same_file x x` is true for every well-formed record `x`,
whether `x` is a `(hash, modTime, size)` triple or a `(modTime, size)` pair
and whether its `modTime` and `size` are present or ABSENT. -/
theorem is_same_file_refl (x : FileRecord) : is_same_file x x = true := by
  cases x with
  | triple h d s => cases d <;> simp [is_same_file]
  | pair d s =>
      cases d with
      | none => simp [is_same_file, FileRecord.mod, FileRecord.sz]
      | some t => simp [is_same_file, FileRecord.mod, FileRecord.sz]

/-- Claim C10: invoking the global uploader's upload with an empty path
list is a no-op apart from a logged warning: the effect trace contains no
storage-tool invocation and no scratch-file write, and the call returns
normally. -/
theorem uploader_upload_empty_batch (a : UploaderAction) :
    uploaderUpload [] a = [Effect.logWarning] ∧
    ∀ e ∈ uploaderUpload [] a,
      (∀ s ps, e ≠ Effect.runRclone s ps) ∧ ∀ ps, e ≠ Effect.scratchWrite ps := by
  refine ⟨rfl, ?_⟩
  intro e he
  have : e = Effect.logWarning := by simpa [uploaderUpload] using he
  subst this
  exact ⟨fun s ps => by simp, fun ps => by simp⟩

/-- Claim C8, counterexample: two triples whose modification times are both
ABSENT but whose hashes differ; the claim demands `true` (same iff both
mtimes ABSENT, regardless of hashes) yet `is_same_file` returns `false`,
because the hash check precedes the mtime rule. -/
theorem is_same_file_absent_mtime_cex :
    is_same_file (FileRecord.triple (some "a") none (some 1))
        (FileRecord.triple (some "b") none (some 1)) = false ∧
    (FileRecord.triple (some "a") none (some 1)).mod = none ∧
    (FileRecord.triple (some "b") none (some 1)).mod = none := by
  refine ⟨?_, rfl, rfl⟩
  decide

/-- Claim C8 as amended: when at least one modification time is ABSENT,
`is_same_file` returns true iff both are ABSENT AND the checks performed
before the mtime rule pass — hash equality and size equality in the
triple/triple case, size equality of the trailing pairs otherwise; a hash
or size mismatch yields false even when both mtimes are ABSENT. -/
theorem is_same_file_absent_mtime (f1 f2 : FileRecord)
    (h : f1.mod = none ∨ f2.mod = none) :
    is_same_file f1 f2 =
      (hashSizeChecksPass f1 f2 && f1.mod.isNone && f2.mod.isNone) := by
  have hone : (f1.mod.isNone || f2.mod.isNone) = true := by
    rcases h with h | h <;> simp [h]
  have hbeq : (f1.mod == f2.mod) = (f1.mod.isNone && f2.mod.isNone) :=
    option_beq_of_absent h
  rcases f1 with ⟨h1, d1, s1⟩ | ⟨d1, s1⟩ <;> rcases f2 with ⟨h2, d2, s2⟩ | ⟨d2, s2⟩ <;>
      simp only [FileRecord.mod, FileRecord.sz] at h hone hbeq ⊢
  case triple.triple =>
    by_cases hh : h1 = h2 <;> by_cases hs : s1 = s2 <;>
      simp [is_same_file, hashSizeChecksPass, hh, hs, hone, hbeq, Bool.and_assoc]
  case triple.pair =>
    by_cases hs : s1 = s2 <;>
      simp [is_same_file, hashSizeChecksPass, FileRecord.mod, FileRecord.sz, hs,
        hone, hbeq, Bool.and_assoc]
  case pair.triple =>
    by_cases hs : s1 = s2 <;>
      simp [is_same_file, hashSizeChecksPass, FileRecord.mod, FileRecord.sz, hs,
        hone, hbeq, Bool.and_assoc]
  case pair.pair =>
    by_cases hs : s1 = s2 <;>
      simp [is_same_file, hashSizeChecksPass, FileRecord.mod, FileRecord.sz, hs,
        hone, hbeq, Bool.and_assoc]

/-- Claim C8 amended, witness: a triple with an ABSENT mtime against one
with a present mtime, equal hashes and sizes; the hypothesis holds and the
predicate evaluates to false as the amended claim states. -/
theorem is_same_file_absent_mtime_witness :
    ((FileRecord.triple (some "a") none (some 1)).mod = none ∨
      (FileRecord.triple (some "a") (some 5) (some 1)).mod = none) ∧
    is_same_file (FileRecord.triple (some "a") none (some 1))
        (FileRecord.triple (some "a") (some 5) (some 1)) =
      (hashSizeChecksPass (FileRecord.triple (some "a") none (some 1))
          (FileRecord.triple (some "a") (some 5) (some 1)) &&
        (FileRecord.triple (some "a") none (some 1)).mod.isNone &&
        (FileRecord.triple (some "a") (some 5) (some 1)).mod.isNone) :=
  ⟨Or.inl rfl,
    is_same_file_absent_mtime (FileRecord.triple (some "a") none (some 1))
      (FileRecord.triple (some "a") (some 5) (some 1)) (Or.inl rfl)⟩

/-- Pruning is a no-op when no recorded time has expired relative to the
current time. -/
theorem pruneExpired_eq_self (retry_expiry curr_time : Nat) (l : List Nat)
    (h : ∀ t ∈ l, curr_time ≤ t + retry_expiry) :
    pruneExpired retry_expiry curr_time l = l := by
  cases l with
  | nil => rfl
  | cons t rest =>
      have ht := h t (List.mem_cons_self t rest)
      simp [pruneExpired, Nat.not_lt.mpr ht]

/-- Behaviour of the retry loop when every observed clock value lies in a
span `[lo, hi]` no wider than `retry_expiry`: nothing is ever pruned, each
failing attempt appends its two timestamps, and the exception is re-raised
as soon as the list exceeds `max_retry_count` entries. -/
theorem retryRunsGo_spec (maxR expiry lo hi : Nat) (hhi : hi ≤ lo + expiry)
    (attempts : List (Nat × Nat)) :
    ∀ runs : List Nat, (∀ t ∈ runs, lo ≤ t) → runs.length ≤ maxR →
    (∀ p ∈ attempts, lo ≤ p.1 ∧ p.1 ≤ hi ∧ lo ≤ p.2 ∧ p.2 ≤ hi) →
    (retryRunsGo maxR expiry runs attempts).1
        = decide (maxR < runs.length + 2 * attempts.length) ∧
    (runs.length + 2 * attempts.length ≤ maxR →
      (retryRunsGo maxR expiry runs attempts).2 = runs ++ recordedTimes attempts) := by
  induction attempts with
  | nil =>
      intro runs hruns hlen _
      constructor
      · simp only [retryRunsGo, List.length_nil, Nat.mul_zero, Nat.add_zero]
        symm
        rw [decide_eq_false_iff_not]
        omega
      · intro _
        simp [retryRunsGo, recordedTimes]
  | cons p rest ih =>
      obtain ⟨s, f⟩ := p
      intro runs hruns hlen hall
      have hp := hall (s, f) (List.mem_cons_self _ _)
      have hprune : pruneExpired expiry f (runs ++ [s]) = runs ++ [s] := by
        apply pruneExpired_eq_self
        intro t ht
        rcases List.mem_append.mp ht with h1 | h1
        · have := hruns t h1
          omega
        · have : t = s := by simpa using h1
          omega
      have hruns3 : ∀ t ∈ (runs ++ [s]) ++ [f], lo ≤ t := by
        intro t ht
        rcases List.mem_append.mp ht with h1 | h1
        · rcases List.mem_append.mp h1 with h2 | h2
          · exact hruns t h2
          · have : t = s := by simpa using h2
            omega
        · have : t = f := by simpa using h1
          omega
      have hlen3 : ((runs ++ [s]) ++ [f]).length = runs.length + 2 := by
        simp
      rw [retryRunsGo]
      simp only [hprune]
      by_cases hcase : maxR < ((runs ++ [s]) ++ [f]).length
      · rw [if_pos hcase]
        rw [hlen3] at hcase
        constructor
        · symm
          rw [decide_eq_true_iff]
          simp only [List.length_cons]
          omega
        · intro hle
          simp only [List.length_cons] at hle
          omega
      · rw [if_neg hcase]
        rw [hlen3] at hcase
        have hIH := ih ((runs ++ [s]) ++ [f]) hruns3 (by omega)
          (fun q hq => hall q (List.mem_cons_of_mem _ hq))
        rw [hlen3] at hIH
        constructor
        · rw [hIH.1]
          simp only [List.length_cons]
          have harith : runs.length + 2 + 2 * rest.length
              = runs.length + 2 * (rest.length + 1) := by ring
          rw [harith]
        · intro hle
          simp only [List.length_cons] at hle
          rw [hIH.2 (by omega)]
          simp [recordedTimes, List.append_assoc]

/-- Claim C7, counterexample: with the default budgets, a single failure at
clock 10 (its run started at clock 0, both inside the expiry window) leaves
a window of length 2, not 1 — each failed run records both its start time
and its failure time; and with `maxRetryCount = 2`, two failures within the
window already re-raise, although the claim allows a re-raise only after
more than 2 failures. -/
theorem retry_on_error_window_cex :
    (retry_on_error_window 10 3600 [(0, 10)]).2.length = 2 ∧
    (retry_on_error_window 10 3600 [(0, 10)]).2.length ≠ 1 ∧
    (retry_on_error_window 2 3600 [(0, 10), (20, 30)]).1 = true := by
  refine ⟨?_, ?_, ?_⟩ <;> decide

/-- Claim C7 as amended: every failed run records two entries in the
sliding window — the `time()` read at the top of the loop and the `time()`
read after the post-failure sleep.  When all recorded clock values lie
within one `retryExpiry` span, after `k` failures (with no earlier
re-raise) the window holds exactly the `2k` recorded timestamps, none of
them expired, and the exception is re-raised exactly when the window
exceeds `maxRetryCount` entries, i.e. as soon as `2k > maxRetryCount`. -/
theorem retry_on_error_window_spec (maxR expiry lo hi : Nat)
    (attempts : List (Nat × Nat)) (hhi : hi ≤ lo + expiry)
    (hall : ∀ p ∈ attempts, lo ≤ p.1 ∧ p.1 ≤ hi ∧ lo ≤ p.2 ∧ p.2 ≤ hi) :
    (retry_on_error_window maxR expiry attempts).1
        = decide (maxR < 2 * attempts.length) ∧
    (2 * attempts.length ≤ maxR →
      (retry_on_error_window maxR expiry attempts).2 = recordedTimes attempts) := by
  have h := retryRunsGo_spec maxR expiry lo hi hhi attempts []
    (by intro t ht; cases ht) (Nat.zero_le _) hall
  simpa [retry_on_error_window] using h

/-- Claim C7 amended, witness: two failures at clocks (0,10) and (20,30)
with `maxRetryCount = 10`, `retryExpiry = 3600`: no re-raise and the window
is exactly the four recorded timestamps. -/
theorem retry_on_error_window_spec_witness :
    (30 ≤ 0 + 3600 ∧
      ∀ p ∈ [((0 : Nat), (10 : Nat)), (20, 30)],
        0 ≤ p.1 ∧ p.1 ≤ 30 ∧ 0 ≤ p.2 ∧ p.2 ≤ 30) ∧
    (retry_on_error_window 10 3600 [(0, 10), (20, 30)]).1
        = decide (10 < 2 * ([((0 : Nat), (10 : Nat)), (20, 30)]).length) ∧
    (2 * ([((0 : Nat), (10 : Nat)), (20, 30)]).length ≤ 10 →
      (retry_on_error_window 10 3600 [(0, 10), (20, 30)]).2
        = recordedTimes [(0, 10), (20, 30)]) :=
  ⟨⟨by decide, by decide⟩,
    retry_on_error_window_spec 10 3600 0 30 [(0, 10), (20, 30)]
      (by decide) (by decide)⟩

/-- `copy` is in `Uploader.ACTIONS`. -/
theorem copy_mem_ACTIONS : UploaderAction.copy ∈ uploaderACTIONS := by decide

/-- `delete_files` is not in `Uploader.ACTIONS`. -/
theorem delete_files_not_mem_ACTIONS :
    UploaderAction.delete_files ∉ uploaderACTIONS := by decide

/-- Claim C5, counterexample: feeding the folder uploader
`(copy [a]), (copy [b]), (delete_files [c]), (copy [d])`, each within the
10-second window of its predecessor, yields only two emissions to the
global uploader — `copy [a, b]` and `copy [d]` — not three: the
`delete_files` batch is executed directly by the folder uploader and never
reaches the global uploader queue. -/
theorem folderUploader_coalescing_cex :
    globalUploaderEmissions (folderUploaderListen none []
        [QueueEvent.msg ["a"] UploaderAction.copy,
         QueueEvent.msg ["b"] UploaderAction.copy,
         QueueEvent.msg ["c"] UploaderAction.delete_files,
         QueueEvent.msg ["d"] UploaderAction.copy,
         QueueEvent.timeout])
      = [(UploaderAction.copy, ["a", "b"]), (UploaderAction.copy, ["d"])] ∧
    globalUploaderEmissions (folderUploaderListen none []
        [QueueEvent.msg ["a"] UploaderAction.copy,
         QueueEvent.msg ["b"] UploaderAction.copy,
         QueueEvent.msg ["c"] UploaderAction.delete_files,
         QueueEvent.msg ["d"] UploaderAction.copy,
         QueueEvent.timeout])
      ≠ [(UploaderAction.copy, ["a", "b"]), (UploaderAction.delete_files, ["c"]),
         (UploaderAction.copy, ["d"])] := by
  refine ⟨?_, ?_⟩ <;> decide

/-- Claim C5 as amended: that sequence produces exactly three flushes via
`perform_action`, in order `copy (A ++ B)`, `delete_files C`, `copy D`; of
these, only the two copy batches are emitted (filtered by `check_file`) to
the global uploader, while `delete_files C` is executed directly by the
folder uploader. -/
theorem folderUploader_coalescing (A B C D : List String) :
    folderUploaderListen none []
        [QueueEvent.msg A UploaderAction.copy, QueueEvent.msg B UploaderAction.copy,
         QueueEvent.msg C UploaderAction.delete_files,
         QueueEvent.msg D UploaderAction.copy, QueueEvent.timeout]
      = [(UploaderAction.copy, A ++ B), (UploaderAction.delete_files, C),
         (UploaderAction.copy, D)] ∧
    globalUploaderEmissions (folderUploaderListen none []
        [QueueEvent.msg A UploaderAction.copy, QueueEvent.msg B UploaderAction.copy,
         QueueEvent.msg C UploaderAction.delete_files,
         QueueEvent.msg D UploaderAction.copy, QueueEvent.timeout])
      = [(UploaderAction.copy, (A ++ B).filter check_file),
         (UploaderAction.copy, D.filter check_file)] := by
  have h1 : folderUploaderListen none []
        [QueueEvent.msg A UploaderAction.copy, QueueEvent.msg B UploaderAction.copy,
         QueueEvent.msg C UploaderAction.delete_files,
         QueueEvent.msg D UploaderAction.copy, QueueEvent.timeout]
      = [(UploaderAction.copy, A ++ B), (UploaderAction.delete_files, C),
         (UploaderAction.copy, D)] := by
    simp [folderUploaderListen, flushOf, copy_mem_ACTIONS,
      delete_files_not_mem_ACTIONS]
  refine ⟨h1, ?_⟩
  rw [h1]
  simp [globalUploaderEmissions, copy_mem_ACTIONS, delete_files_not_mem_ACTIONS]

/-- Claim C6, counterexample: for the batch `["a.txt"]` forwarded as copy,
the pipeline's effect order is queue-put, set `uploaded = modified`,
scratch write, storage-tool run — the database write happens upon
enqueueing, before the transfer, so it is not true that `uploadedTime` is
set only after the transfer has completed. -/
theorem folderUploader_upload_marks_before_transfer_cex :
    uploadPipelineTrace ["a.txt"] UploaderAction.copy =
      [Effect.queuePut ["a.txt"] UploaderAction.copy,
       Effect.dbSetUploadedToModified ["a.txt"],
       Effect.scratchWrite ["a.txt"],
       Effect.runRclone "copy" ["a.txt"]] ∧
    setUploadedOnlyAfterTransfer (uploadPipelineTrace ["a.txt"] UploaderAction.copy)
      = false := by
  refine ⟨?_, ?_⟩ <;> decide

/-- Claim C6 as amended: for every batch forwarded as copy/move whose
filtered path list is non-empty, `uploaded = modified` is written
immediately after the batch is pushed onto the global uploader queue and
before the storage-tool transfer runs — never after the transfer. -/
theorem folderUploader_upload_marks_before_transfer (files : List String)
    (a : UploaderAction) (h : files.filter check_file ≠ []) :
    uploadPipelineTrace files a =
      [Effect.queuePut (files.filter check_file) a,
       Effect.dbSetUploadedToModified (files.filter check_file),
       Effect.scratchWrite (files.filter check_file),
       Effect.runRclone (actionName a) (files.filter check_file)] ∧
    setUploadedOnlyAfterTransfer (uploadPipelineTrace files a) = false := by
  have hne : (files.filter check_file).isEmpty = false := by
    cases hfe : (files.filter check_file).isEmpty
    · rfl
    · exact absurd (List.isEmpty_iff.mp hfe) h
  have htrace : uploadPipelineTrace files a =
      [Effect.queuePut (files.filter check_file) a,
       Effect.dbSetUploadedToModified (files.filter check_file),
       Effect.scratchWrite (files.filter check_file),
       Effect.runRclone (actionName a) (files.filter check_file)] := by
    simp [uploadPipelineTrace, folderUploaderUpload, uploaderUpload, hne]
  refine ⟨htrace, ?_⟩
  rw [htrace]
  simp [setUploadedOnlyAfterTransfer, setUploadedOnlyAfterTransferAux]

/-- Claim C6 amended, witness: the batch `["a.txt"]` forwarded as copy. -/
theorem folderUploader_upload_marks_before_transfer_witness :
    (["a.txt"].filter check_file ≠ []) ∧
    (uploadPipelineTrace ["a.txt"] UploaderAction.move =
      [Effect.queuePut (["a.txt"].filter check_file) UploaderAction.move,
       Effect.dbSetUploadedToModified (["a.txt"].filter check_file),
       Effect.scratchWrite (["a.txt"].filter check_file),
       Effect.runRclone (actionName UploaderAction.move) (["a.txt"].filter check_file)] ∧
    setUploadedOnlyAfterTransfer (uploadPipelineTrace ["a.txt"] UploaderAction.move)
      = false) :=
  ⟨by decide,
    folderUploader_upload_marks_before_transfer ["a.txt"] UploaderAction.move (by decide)⟩

/-- Claim C3, counterexample: a batch with `delete_files = ["x"]` and
`delete_folders = ["foo"]` against a database holding a `cloud_only` row
for `"x"` and a row `"foobar"` that merely shares the string prefix
`"foo"`: the UPDATE clears the byte columns of both — the `cloud_only` row
does not keep its fields, and `"foobar"` is cleared although it is not a
descendant of `"foo"` (its path does not start with `"foo/"`). -/
theorem uploadSyncerClearDeleted_cex :
    uploadSyncerClearDeleted ["x"] ["foo"]
        [⟨"x", some 1, some "h", some 0, some 7, true⟩,
         ⟨"foobar", some 2, some "g", some 3, none, false⟩]
      = [⟨"x", none, none, none, some 7, true⟩,
         ⟨"foobar", none, none, none, none, false⟩] ∧
    strStartsWith "foobar" ("foo" ++ "/") = false ∧
    ¬ ("foobar" ∈ (["x"] : List String)) := by
  refine ⟨?_, ?_, ?_⟩ <;> decide

/-- Claim C3 as amended: processing a batch with `delete_files` paths `D`
and `delete_folders` prefixes `P` sets `hash`, `modTime` and `size` to
ABSENT exactly on the rows whose path is in `D` or starts with some string
of `P` (a plain string-prefix match, not restricted to path-component
descendants), regardless of the `cloudOnly` flag; on every affected row the
`path`, `uploadedTime` and `cloudOnly` fields are preserved, and every
other row is unchanged. -/
theorem uploadSyncerClearDeleted_spec (D P : List String) (db : List FileRow)
    (i : Nat) (h : i < db.length) :
    ∃ r r', db.get? i = some r ∧
      (uploadSyncerClearDeleted D P db).get? i = some r' ∧
      r'.path = r.path ∧ r'.uploaded = r.uploaded ∧ r'.cloud_only = r.cloud_only ∧
      (if D.contains r.path || P.any (fun p => strStartsWith r.path p)
       then r'.hash = none ∧ r'.modified = none ∧ r'.size = none
       else r' = r) := by
  have hget : db.get? i = some (db.get ⟨i, h⟩) := List.get?_eq_get h
  by_cases hc : (D.contains (db.get ⟨i, h⟩).path
      || P.any (fun p => strStartsWith (db.get ⟨i, h⟩).path p)) = true
  · have hmap : (uploadSyncerClearDeleted D P db).get? i
        = some { db.get ⟨i, h⟩ with size := none, hash := none, modified := none } := by
      unfold uploadSyncerClearDeleted
      rw [List.get?_map, hget, Option.map_some']
      rw [if_pos hc]
    exact ⟨db.get ⟨i, h⟩,
      { db.get ⟨i, h⟩ with size := none, hash := none, modified := none },
      hget, hmap, rfl, rfl, rfl, by rw [if_pos hc]; exact ⟨rfl, rfl, rfl⟩⟩
  · have hmap : (uploadSyncerClearDeleted D P db).get? i
        = some (db.get ⟨i, h⟩) := by
      unfold uploadSyncerClearDeleted
      rw [List.get?_map, hget, Option.map_some']
      rw [if_neg hc]
    exact ⟨db.get ⟨i, h⟩, db.get ⟨i, h⟩, hget, hmap, rfl, rfl, rfl,
      by rw [if_neg hc]⟩

/-- Claim C3 amended, witness: one `cloud_only` row whose path is listed in
`delete_files`. -/
theorem uploadSyncerClearDeleted_spec_witness :
    0 < ([(⟨"x", some 1, some "h", some 0, some 7, true⟩ : FileRow)] : List FileRow).length ∧
    ∃ r r', ([(⟨"x", some 1, some "h", some 0, some 7, true⟩ : FileRow)] : List FileRow).get? 0 = some r ∧
      (uploadSyncerClearDeleted ["x"] []
        [⟨"x", some 1, some "h", some 0, some 7, true⟩]).get? 0 = some r' ∧
      r'.path = r.path ∧ r'.uploaded = r.uploaded ∧ r'.cloud_only = r.cloud_only ∧
      (if (["x"] : List String).contains r.path
          || ([] : List String).any (fun p => strStartsWith r.path p)
       then r'.hash = none ∧ r'.modified = none ∧ r'.size = none
       else r' = r) :=
  ⟨by decide,
    uploadSyncerClearDeleted_spec ["x"] []
      [⟨"x", some 1, some "h", some 0, some 7, true⟩] 0 (by decide)⟩

/-- Claim C4: processing a batch containing a `LocalChangeDetected`
deleted-file event for path `p` whose row is not `cloud_only`: the listen
loop appends `p` to `delete_files`, clears the row's byte columns, puts
`(["p"], delete_files)` on the folder upload queue — and adds nothing to
the sync daemon's ignore list, contradicting both the claim and the
function's own docstring ("Local deletions are ignored, these paths are
added to the Syncthing ignores"). -/
theorem uploadSyncer_local_delete_adds_no_ignores :
    uploadSyncerProcess "f" (fun _ => ⟨some "h", 0, 1⟩)
        [⟨"p", some 1, some "h", some 0, some 0, false⟩]
        [⟨"LocalChangeDetected", "f", "deleted", "p", "file"⟩]
      = ⟨[⟨"p", none, none, none, some 0, false⟩],
         [(["p"], UploaderAction.delete_files)], []⟩ ∧
    (uploadSyncerProcess "f" (fun _ => ⟨some "h", 0, 1⟩)
        [⟨"p", some 1, some "h", some 0, some 0, false⟩]
        [⟨"LocalChangeDetected", "f", "deleted", "p", "file"⟩]).ignoreAdds = [] := by
  refine ⟨?_, ?_⟩ <;> decide

/-- Claim C1: a path `p` whose index row has `uploaded` present, `size`
ABSENT and `cloud_only` false, reported by the storage tool as still
present remotely (so `p` is among the new download candidates):
`sync_from_cloud` computes an empty `deletion_missed` set — the SELECT's
last conjunct is the constant false described at `pyNotCloudOnlyColumn` —
so no `delete_files` item is enqueued and `p` stays in the list passed to
the download copy invocation, contrary to the claim. -/
theorem syncFromCloud_deletion_missed_dead :
    deletionMissedSelect ["p"] [⟨"p", none, none, none, some 5, false⟩] = [] ∧
    (syncFromCloudDownloadStep [⟨"p", none, none, none, some 5, false⟩]
        ["p"] [] 100 true).puts = [] ∧
    (syncFromCloudDownloadStep [⟨"p", none, none, none, some 5, false⟩]
        ["p"] [] 100 true).downloadFiles = ["p"] := by
  refine ⟨?_, ?_, ?_⟩ <;> decide

/-- Claim C2: starting from an index whose single row is the soft-deleted
`("a.txt", size/hash/modified ABSENT, uploaded = 5)` — absent from the
checkfile because its hash is NULL, hence legitimately reported by `check`
as missing-on-src — the recording step of `sync_from_cloud` INSERTs a
second row `("a.txt", uploaded = now)` without replacing the existing one,
leaving two `FileIndex` rows for the same path. -/
theorem syncFromCloud_inserts_duplicate_row :
    writeCheckfileEntries [⟨"a.txt", none, none, none, some 5, false⟩] = [] ∧
    ((syncFromCloudDownloadStep [⟨"a.txt", none, none, none, some 5, false⟩]
        ["a.txt"] [] 100 true).db.filter (fun r => r.path == "a.txt")).length = 2 := by
  refine ⟨?_, ?_⟩ <;> decide

end Backup
